import Mathlib

/-!
Verification of the pitchfork-echo-studio qBraid integration module
(`src/integrations/qbraid_integration.py`).

The module's analysis layer is embedded shallowly: Python dicts become
association lists (Python dicts preserve insertion order), Python floats
become `ℚ` where the code only does field arithmetic and `ℝ` where it calls
`math.log2`, and code that can raise a Python exception is modelled with
`Except String`, the error carrying the exception's description (as stored
by the suite runner's `except` clause).
-/

namespace QbraidIntegration

/-- Modelled from the spec: the `JobResult` record produced by the external
`qbraid_manager` (not part of this repository): a success flag, an
outcome-count histogram (bitstring label to non-negative integer, in
insertion order), and a non-negative execution time. Only these three
fields are read by this module. -/
structure JobResult where
  success : Bool
  counts : List (String × ℕ)
  execution_time : ℚ
deriving DecidableEq, Repr

/-- `sum(result.counts.values())` (line 251). -/
def total_shots (counts : List (String × ℕ)) : ℕ :=
  (counts.map Prod.snd).sum

/-- `max(result.counts.items(), key=lambda x: x[1])` (line 252).
Python's `max` raises `ValueError` on an empty sequence (modelled by
`none`) and returns the first item attaining the maximal key otherwise
(later items replace the current best only on a strictly greater key). -/
def most_common : List (String × ℕ) → Option (String × ℕ)
  | [] => none
  | x :: xs => some (xs.foldl (fun acc y => if acc.2 < y.2 then y else acc) x)

/-- The entropy accumulated by the loop of `_calculate_harmony`
(lines 271-275): summands with a zero count are skipped. -/
noncomputable def harmony_sum (counts : List (String × ℕ)) : ℝ :=
  ((counts.map Prod.snd).map fun c : ℕ =>
    if 0 < c then -(((c : ℝ) / (total_shots counts : ℝ)) *
      Real.logb 2 ((c : ℝ) / (total_shots counts : ℝ))) else 0).sum

/-- `_calculate_harmony` (lines 264-277): base-2 Shannon entropy of the
normalized count distribution (skipping zero counts), divided by 4.0 and
clamped above by 1.0; `0.0` when the counts sum to zero. -/
noncomputable def calculate_harmony (counts : List (String × ℕ)) : ℝ :=
  if total_shots counts = 0 then 0
  else min 1 (harmony_sum counts / 4)

/-- `_generate_audio_insights` (lines 279-295). -/
def generate_audio_insights (result : JobResult) : List String :=
  if result.success then
    ["Quantum audio synthesis achieved",
     "Consciousness-enhanced audio quantum-processed"]
      ++ (if result.execution_time < 30 then ["Fast audio processing achieved"] else [])
      ++ (if result.counts.length > 8 then
            ["High audio diversity - excellent creative potential"] else [])
  else
    ["Fallback to classical audio algorithms recommended"]

/-- The dictionary returned by `analyze_audio_effectiveness`: either the
`{"error": "quantum_audio_failed"}` marker or the five-field analysis. -/
inductive AnalysisReport where
  | failed (msg : String)
  | report (audio_quality : ℚ) (optimal_audio : String) (audio_diversity : ℕ)
      (quantum_harmony : ℝ) (audio_insights : List String)

/-- `analyze_audio_effectiveness` (lines 246-262). `Except.error` models a
raised Python exception: `max` on an empty histogram raises `ValueError`,
and `most_common[1] / total_shots` raises `ZeroDivisionError` when the
counts sum to 0. The quality division is exact rational division. -/
noncomputable def analyze_audio_effectiveness (result : JobResult) : Except String AnalysisReport :=
  if result.success then
    match most_common result.counts with
    | none => .error "max() arg is an empty sequence"
    | some mc =>
      if total_shots result.counts = 0 then .error "division by zero"
      else .ok (.report ((mc.2 : ℚ) / (total_shots result.counts : ℚ)) mc.1
        result.counts.length (calculate_harmony result.counts)
        (generate_audio_insights result))
  else
    .ok (.failed "quantum_audio_failed")

/-- The maximum count appearing in the histogram (0 for an empty one). -/
def maxCount (counts : List (String × ℕ)) : ℕ :=
  (counts.map Prod.snd).foldr max 0

/-- From the spec's words, for comparison with the code: "`diversity` =
number of distinct labels with non-zero count". -/
def spec_diversity (counts : List (String × ℕ)) : ℕ :=
  (counts.filter fun p => p.2 != 0).length

/-- The `audio_diversity` field of a successful analysis. -/
def diversityOf : AnalysisReport → Option ℕ
  | .report _ _ d _ _ => some d
  | .failed _ => none

/-- One entry of the mapping built by `run_all_audio_operations`: either the
`{"error": str(e)}` marker or the `{"quantum_result": .., "audio_analysis": ..}`
pair. -/
inductive SuiteEntry where
  | failure (msg : String)
  | outcome (quantum_result : JobResult) (audio_analysis : AnalysisReport)

/-- `run_all_audio_operations` (lines 297-324), abstracted over what the five
operations do: each operation either raises (`Except.error`) or returns a
`JobResult`. The `try` block spans both the operation call and the analysis,
so an exception raised by either one is recorded as the error entry and the
loop continues. -/
noncomputable def run_all_audio_operations (ops : List (String × Except String JobResult)) :
    List (String × SuiteEntry) :=
  ops.map fun p =>
    (p.1, match p.2 with
      | .error e => .failure e
      | .ok qr =>
        match analyze_audio_effectiveness qr with
        | .error e => .failure e
        | .ok a => .outcome qr a)

/-- Whether a suite entry passes the filter on line 328:
`"quantum_result" in r and r["quantum_result"].success`. -/
def isSuccessfulOp : SuiteEntry → Bool
  | .outcome qr _ => qr.success
  | .failure _ => false

/-- `r["quantum_result"].execution_time` (line 333); only ever applied to
entries that passed `isSuccessfulOp`. -/
def execTimeOf : SuiteEntry → ℚ
  | .outcome qr _ => qr.execution_time
  | .failure _ => 0

/-- `r["audio_analysis"].get("audio_quality", 0)` (line 334): dictionary
lookup with default 0 when the analysis is the error marker. -/
def qualityOf : SuiteEntry → ℚ
  | .outcome _ (.report q _ _ _ _) => q
  | .outcome _ (.failed _) => 0
  | .failure _ => 0

/-- The filter on line 328. -/
def successful_ops (results : List (String × SuiteEntry)) : List (String × SuiteEntry) :=
  results.filter fun r => isSuccessfulOp r.2

/-- The recommendation block of `get_audio_performance_metrics`
(lines 344-353): an if/elif on the success rate, then an independent if on
the average quality. -/
def recommendationList (success_rate avg_quality : ℚ) : List String :=
  (if success_rate ≥ 8/10 then ["Audio system ready for quantum-enhanced production"]
   else if success_rate ≥ 6/10 then ["Audio system ready for advanced quantum processing"]
   else [])
  ++ (if avg_quality ≥ 7/10 then ["Conscious-level audio quality achieved"] else [])

/-- The dictionary returned by `get_audio_performance_metrics`: either the
`{"status": "no_successful_audio_operations"}` marker or the full metrics. -/
inductive Metrics where
  | noSuccess
  | metrics (total_audio_operations successful_operations : ℕ) (success_rate : ℚ)
      (total_execution_time average_execution_time average_audio_quality : ℚ)
      (audio_quantum_readiness : String) (recommendationEntries : List String)
deriving DecidableEq, Repr

/-- `get_audio_performance_metrics` (lines 326-355). -/
def get_audio_performance_metrics (results : List (String × SuiteEntry)) : Metrics :=
  if (successful_ops results).isEmpty then .noSuccess
  else
    let succ := successful_ops results
    let total_time : ℚ := (succ.map fun r => execTimeOf r.2).sum
    let avg_quality : ℚ := (succ.map fun r => qualityOf r.2).sum / (succ.length : ℚ)
    let success_rate : ℚ := (succ.length : ℚ) / (results.length : ℚ)
    .metrics results.length succ.length success_rate total_time
      (total_time / (succ.length : ℚ)) avg_quality
      (if succ.length ≥ 4 then "CONSCIOUS" else if succ.length ≥ 2 then "HARMONIC"
       else "DEVELOPING")
      (recommendationList success_rate avg_quality)

/-! Helper lemmas about `most_common`, `maxCount` and `total_shots`. -/

/-- The fold inside `most_common` returns a member of `a :: xs` whose count
dominates `a` and every element of `xs`. -/
theorem foldl_best_spec (xs : List (String × ℕ)) (a : String × ℕ) :
    xs.foldl (fun acc y => if acc.2 < y.2 then y else acc) a ∈ a :: xs ∧
    a.2 ≤ (xs.foldl (fun acc y => if acc.2 < y.2 then y else acc) a).2 ∧
    ∀ y ∈ xs, y.2 ≤ (xs.foldl (fun acc y => if acc.2 < y.2 then y else acc) a).2 := by
  induction xs generalizing a with
  | nil => simp
  | cons x xs ih =>
    simp only [List.foldl_cons]
    obtain ⟨hmem, hle, hall⟩ := ih (if a.2 < x.2 then x else a)
    refine ⟨?_, ?_, ?_⟩
    · rcases List.mem_cons.mp hmem with h | h
      · rw [h]
        split
        · exact List.mem_cons_of_mem _ (List.mem_cons_self _ _)
        · exact List.mem_cons_self _ _
      · exact List.mem_cons_of_mem _ (List.mem_cons_of_mem _ h)
    · refine le_trans ?_ hle
      split
      · exact le_of_lt (by assumption)
      · exact le_rfl
    · intro y hy
      rcases List.mem_cons.mp hy with h | h
      · subst h
        refine le_trans ?_ hle
        split
        · exact le_rfl
        · exact le_of_not_lt (by assumption)
      · exact hall y h

/-- On a non-empty histogram `most_common` returns an element that attains
the maximal count. -/
theorem most_common_spec (x : String × ℕ) (xs : List (String × ℕ)) :
    ∃ m, most_common (x :: xs) = some m ∧ m ∈ x :: xs ∧ ∀ y ∈ x :: xs, y.2 ≤ m.2 := by
  obtain ⟨hmem, hle, hall⟩ := foldl_best_spec xs x
  refine ⟨_, rfl, hmem, ?_⟩
  intro y hy
  rcases List.mem_cons.mp hy with h | h
  · subst h; exact hle
  · exact hall y h

/-- Every count in the histogram is bounded by `maxCount`. -/
theorem le_maxCount (counts : List (String × ℕ)) (y : String × ℕ) (hy : y ∈ counts) :
    y.2 ≤ maxCount counts := by
  induction counts with
  | nil => cases hy
  | cons x xs ih =>
    rcases List.mem_cons.mp hy with h | h
    · subst h; exact le_max_left _ _
    · exact le_trans (ih h) (le_max_right _ _)

/-- `maxCount` is bounded by any common upper bound of the counts. -/
theorem maxCount_le (counts : List (String × ℕ)) (n : ℕ)
    (h : ∀ y ∈ counts, y.2 ≤ n) : maxCount counts ≤ n := by
  induction counts with
  | nil => exact Nat.zero_le n
  | cons x xs ih =>
    exact max_le (h x (List.mem_cons_self _ _))
      (ih fun y hy => h y (List.mem_cons_of_mem _ hy))

/-- An element attaining the maximal count realises `maxCount`. -/
theorem maxCount_eq_of_mem_max (counts : List (String × ℕ)) (m : String × ℕ)
    (hm : m ∈ counts) (hmax : ∀ y ∈ counts, y.2 ≤ m.2) : maxCount counts = m.2 :=
  le_antisymm (maxCount_le counts m.2 hmax) (le_maxCount counts m hm)

/-- Every count in the histogram is bounded by the total. -/
theorem snd_le_total_shots (counts : List (String × ℕ)) (y : String × ℕ)
    (hy : y ∈ counts) : y.2 ≤ total_shots counts :=
  List.le_sum_of_mem (List.mem_map_of_mem Prod.snd hy)

/-- A histogram whose counts all vanish has total 0. -/
theorem total_shots_eq_zero (counts : List (String × ℕ))
    (h : ∀ p ∈ counts, p.2 = 0) : total_shots counts = 0 := by
  unfold total_shots
  rw [List.sum_eq_zero_iff]
  intro c hc
  obtain ⟨p, hp, hpc⟩ := List.mem_map.mp hc
  exact hpc ▸ h p hp

/-! The claims. -/

/-- C8: for every `JobResult` with `success = false`,
`analyze_audio_effectiveness` returns the `{"error": "quantum_audio_failed"}`
marker (raising nothing), without reading the outcome-count mapping. -/
theorem analyze_failure_marker (r : JobResult) (hs : r.success = false) :
    analyze_audio_effectiveness r = .ok (.failed "quantum_audio_failed") := by
  simp [analyze_audio_effectiveness, hs]

/-- Witness for C8 at a concrete failed result. -/
theorem analyze_failure_marker_witness :
    (⟨false, [("0101", 80)], 5⟩ : JobResult).success = false ∧
    analyze_audio_effectiveness ⟨false, [("0101", 80)], 5⟩ =
      .ok (.failed "quantum_audio_failed") :=
  ⟨rfl, analyze_failure_marker ⟨false, [("0101", 80)], 5⟩ rfl⟩

/-- C9: `analyze_audio_effectiveness` is not total on successful results: an
empty histogram makes Python's `max` raise (`ValueError`), and a non-empty
histogram whose counts are all 0 makes the quality division raise
(`ZeroDivisionError`); neither case is guarded. -/
theorem analyze_unguarded_edge_cases (r : JobResult) (hs : r.success = true) :
    (r.counts = [] →
      analyze_audio_effectiveness r = .error "max() arg is an empty sequence") ∧
    (r.counts ≠ [] → (∀ p ∈ r.counts, p.2 = 0) →
      analyze_audio_effectiveness r = .error "division by zero") := by
  constructor
  · intro hnil
    simp [analyze_audio_effectiveness, hs, hnil, most_common]
  · intro hne hz
    obtain ⟨x, xs, hx⟩ := List.exists_cons_of_ne_nil hne
    obtain ⟨m, hm, _, _⟩ := most_common_spec x xs
    have htot : total_shots (x :: xs) = 0 := hx ▸ total_shots_eq_zero _ hz
    simp [analyze_audio_effectiveness, hs, hx, hm, htot]

/-- Witness for C9: both unguarded edge cases at concrete inputs. -/
theorem analyze_unguarded_edge_cases_witness :
    analyze_audio_effectiveness ⟨true, [], 0⟩ = .error "max() arg is an empty sequence" ∧
    analyze_audio_effectiveness ⟨true, [("00", 0)], 0⟩ = .error "division by zero" :=
  ⟨(analyze_unguarded_edge_cases ⟨true, [], 0⟩ rfl).1 rfl,
   (analyze_unguarded_edge_cases ⟨true, [("00", 0)], 0⟩ rfl).2 (by decide) (by decide)⟩

/-- C2, counterexample: on `{"0": 1, "1": 0}` the code reports
`audio_diversity = 2` (it uses `len(result.counts)`), while the number of
labels with a strictly positive count is 1. -/
theorem audio_diversity_counts_zero_count_labels :
    (analyze_audio_effectiveness ⟨true, [("0", 1), ("1", 0)], 0⟩).toOption.bind diversityOf
      = some 2 ∧
    spec_diversity [("0", 1), ("1", 0)] = 1 ∧ (2 : ℕ) ≠ 1 := by
  refine ⟨?_, by decide, by decide⟩
  rfl

/-- C2, amended: for every successful result with a positive count total,
`audio_diversity` equals the number of keys of the outcome-count mapping
(including any zero-count keys). -/
theorem audio_diversity_is_key_count (r : JobResult) (hs : r.success = true)
    (hN : 0 < total_shots r.counts) :
    (analyze_audio_effectiveness r).toOption.bind diversityOf = some r.counts.length := by
  have hne : r.counts ≠ [] := by
    intro h
    rw [h] at hN
    simp [total_shots] at hN
  obtain ⟨x, xs, hx⟩ := List.exists_cons_of_ne_nil hne
  obtain ⟨m, hm, _, _⟩ := most_common_spec x xs
  have htot : total_shots (x :: xs) ≠ 0 := hx ▸ Nat.pos_iff_ne_zero.mp hN
  simp [analyze_audio_effectiveness, hs, hx, hm, htot, diversityOf, Except.toOption]

/-- Witness for the amended C2 at a histogram holding a zero-count key. -/
theorem audio_diversity_is_key_count_witness :
    (⟨true, [("0", 1), ("1", 0)], 3⟩ : JobResult).success = true ∧
    0 < total_shots [("0", 1), ("1", 0)] ∧
    (analyze_audio_effectiveness ⟨true, [("0", 1), ("1", 0)], 3⟩).toOption.bind diversityOf
      = some 2 :=
  ⟨rfl, by decide, audio_diversity_is_key_count ⟨true, [("0", 1), ("1", 0)], 3⟩ rfl (by decide)⟩

/-- C5: when no suite entry holds a successful quantum result,
`get_audio_performance_metrics` returns exactly the
`{"status": "no_successful_audio_operations"}` marker, before any of the
arithmetic (in particular before any division) is reached. -/
theorem no_successful_ops_marker (results : List (String × SuiteEntry))
    (h : ∀ p ∈ results, isSuccessfulOp p.2 = false) :
    get_audio_performance_metrics results = .noSuccess := by
  have hempty : successful_ops results = [] := by
    rw [successful_ops, List.filter_eq_nil_iff]
    intro p hp
    simp [h p hp]
  simp [get_audio_performance_metrics, hempty]

/-- Witness for C5 at a suite whose entries all failed. -/
theorem no_successful_ops_marker_witness :
    (∀ p ∈ [("Audio Synthesis", SuiteEntry.failure "device error"),
            ("Consciousness Audio", SuiteEntry.failure "timeout")],
       isSuccessfulOp p.2 = false) ∧
    get_audio_performance_metrics
      [("Audio Synthesis", SuiteEntry.failure "device error"),
       ("Consciousness Audio", SuiteEntry.failure "timeout")] = .noSuccess :=
  ⟨by decide, no_successful_ops_marker _ (by decide)⟩

/-- C1: for every successful result with a non-empty histogram of positive
total, `analyze_audio_effectiveness` reports
`audio_quality = maxCount / total_shots`, a value in `[0, 1]`. -/
theorem audio_quality_is_max_over_total (r : JobResult) (hs : r.success = true)
    (hne : r.counts ≠ []) (hN : 0 < total_shots r.counts) :
    ∃ o d hh ins,
      analyze_audio_effectiveness r =
        .ok (.report ((maxCount r.counts : ℚ) / (total_shots r.counts : ℚ)) o d hh ins) ∧
      0 ≤ ((maxCount r.counts : ℚ) / (total_shots r.counts : ℚ)) ∧
      ((maxCount r.counts : ℚ) / (total_shots r.counts : ℚ)) ≤ 1 := by
  obtain ⟨x, xs, hx⟩ := List.exists_cons_of_ne_nil hne
  obtain ⟨m, hm, hmem, hall⟩ := most_common_spec x xs
  have hmax : maxCount (x :: xs) = m.2 := maxCount_eq_of_mem_max _ m hmem hall
  have htot : total_shots (x :: xs) ≠ 0 := hx ▸ Nat.pos_iff_ne_zero.mp hN
  rw [hx]
  refine ⟨m.1, (x :: xs).length, calculate_harmony (x :: xs),
    generate_audio_insights r, ?_, ?_, ?_⟩
  · simp [analyze_audio_effectiveness, hs, hx, hm, htot, hmax]
  · positivity
  · have h1 : (0 : ℚ) < (total_shots (x :: xs) : ℚ) := by
      exact_mod_cast Nat.pos_of_ne_zero htot
    rw [div_le_one h1]
    exact_mod_cast maxCount_le _ _ fun y hy => snd_le_total_shots _ y hy

/-- Witness for C1 at the histogram `{"0": 3, "1": 1}`. -/
theorem audio_quality_is_max_over_total_witness :
    (⟨true, [("0", 3), ("1", 1)], 2⟩ : JobResult).success = true ∧
    ([("0", 3), ("1", 1)] : List (String × ℕ)) ≠ [] ∧
    0 < total_shots [("0", 3), ("1", 1)] ∧
    ∃ o d hh ins,
      analyze_audio_effectiveness ⟨true, [("0", 3), ("1", 1)], 2⟩ =
        .ok (.report ((maxCount [("0", 3), ("1", 1)] : ℚ)
          / (total_shots [("0", 3), ("1", 1)] : ℚ)) o d hh ins) ∧
      0 ≤ ((maxCount [("0", 3), ("1", 1)] : ℚ) / (total_shots [("0", 3), ("1", 1)] : ℚ)) ∧
      ((maxCount [("0", 3), ("1", 1)] : ℚ) / (total_shots [("0", 3), ("1", 1)] : ℚ)) ≤ 1 :=
  ⟨rfl, by decide, by decide,
   audio_quality_is_max_over_total ⟨true, [("0", 3), ("1", 1)], 2⟩ rfl (by decide) (by decide)⟩

/-- A success rate of at least 0.8 always yields the production-ready
recommendation. -/
theorem mem_recommendationList_of_rate (ra q : ℚ) (h : ra ≥ 8/10) :
    "Audio system ready for quantum-enhanced production" ∈ recommendationList ra q := by
  simp [recommendationList, h]

/-- At any rate and quality, the recommendation block appends at most one
success-rate recommendation (the branches are if/elif) and at most one
quality recommendation. -/
theorem recommendationList_shape (ra q : ℚ) :
    (recommendationList ra q).length ≤ 2 ∧
    ¬("Audio system ready for quantum-enhanced production" ∈ recommendationList ra q ∧
      "Audio system ready for advanced quantum processing" ∈ recommendationList ra q) := by
  unfold recommendationList
  split_ifs <;> constructor <;> decide

/-- C7: whenever `get_audio_performance_metrics` computes a success rate of
exactly 0.8, the production-ready recommendation is appended (the `>= 0.8`
gate is boundary-inclusive). -/
theorem success_rate_boundary_inclusive (results : List (String × SuiteEntry))
    (t s : ℕ) (rate tt avt aq : ℚ) (rd : String) (recs : List String)
    (h : get_audio_performance_metrics results = .metrics t s rate tt avt aq rd recs)
    (hrate : rate = 8/10) :
    "Audio system ready for quantum-enhanced production" ∈ recs := by
  unfold get_audio_performance_metrics at h
  split at h
  · exact absurd h (by simp)
  · simp only [Metrics.metrics.injEq] at h
    obtain ⟨-, -, hr, -, -, -, -, hrecs⟩ := h
    subst hrecs
    exact mem_recommendationList_of_rate _ _ (le_of_eq (hr.trans hrate).symm)

/-- A suite with four successful entries of five, used as a concrete input
to the aggregator (success rate exactly 4/5). -/
noncomputable def suiteFourOfFive : List (String × SuiteEntry) :=
  [("Audio Synthesis", .outcome ⟨true, [("0", 1)], 1⟩ (.report (9/10) "0" 1 0 [])),
   ("Consciousness Audio", .outcome ⟨true, [("0", 1)], 1⟩ (.report (9/10) "0" 1 0 [])),
   ("Echo Optimization", .outcome ⟨true, [("0", 1)], 1⟩ (.report (9/10) "0" 1 0 [])),
   ("Frequency Harmonization", .outcome ⟨true, [("0", 1)], 1⟩ (.report (9/10) "0" 1 0 [])),
   ("Spatial Audio", .failure "device offline")]

/-- Witness for C7 at a suite whose success rate is exactly 0.8. -/
theorem success_rate_boundary_inclusive_witness :
    get_audio_performance_metrics suiteFourOfFive =
      .metrics 5 4 (8/10) 4 1 (9/10) "CONSCIOUS"
        ["Audio system ready for quantum-enhanced production",
         "Conscious-level audio quality achieved"] ∧
    "Audio system ready for quantum-enhanced production" ∈
      ["Audio system ready for quantum-enhanced production",
       "Conscious-level audio quality achieved"] := by
  have h : get_audio_performance_metrics suiteFourOfFive =
      .metrics 5 4 (8/10) 4 1 (9/10) "CONSCIOUS"
        ["Audio system ready for quantum-enhanced production",
         "Conscious-level audio quality achieved"] := by
    norm_num [get_audio_performance_metrics, suiteFourOfFive, successful_ops, isSuccessfulOp,
      execTimeOf, qualityOf, recommendationList]
  exact ⟨h, success_rate_boundary_inclusive suiteFourOfFive 5 4 (8/10) 4 1 (9/10)
    "CONSCIOUS" _ h rfl⟩

/-- C10: in every metrics record produced by `get_audio_performance_metrics`,
the two success-rate recommendations are mutually exclusive and the
recommendation list holds at most 2 entries. -/
theorem recommendation_mutual_exclusion (results : List (String × SuiteEntry))
    (t s : ℕ) (rate tt avt aq : ℚ) (rd : String) (recs : List String)
    (h : get_audio_performance_metrics results = .metrics t s rate tt avt aq rd recs) :
    recs.length ≤ 2 ∧
    ¬("Audio system ready for quantum-enhanced production" ∈ recs ∧
      "Audio system ready for advanced quantum processing" ∈ recs) := by
  unfold get_audio_performance_metrics at h
  split at h
  · exact absurd h (by simp)
  · simp only [Metrics.metrics.injEq] at h
    obtain ⟨-, -, -, -, -, -, -, hrecs⟩ := h
    subst hrecs
    exact recommendationList_shape _ _

/-- A suite with three successful entries of five. -/
noncomputable def suiteThreeOfFive : List (String × SuiteEntry) :=
  [("Audio Synthesis", .outcome ⟨true, [("0", 1)], 1⟩ (.report (1/2) "0" 1 0 [])),
   ("Consciousness Audio", .outcome ⟨true, [("0", 1)], 1⟩ (.report (1/2) "0" 1 0 [])),
   ("Echo Optimization", .outcome ⟨true, [("0", 1)], 1⟩ (.report (1/2) "0" 1 0 [])),
   ("Frequency Harmonization", .failure "quota exceeded"),
   ("Spatial Audio", .failure "device offline")]

/-- Witness for C10 at a suite with success rate 3/5. -/
theorem recommendation_mutual_exclusion_witness :
    get_audio_performance_metrics suiteThreeOfFive =
      .metrics 5 3 (3/5) 3 1 (1/2) "HARMONIC"
        ["Audio system ready for advanced quantum processing"] ∧
    ((["Audio system ready for advanced quantum processing"] : List String).length ≤ 2 ∧
     ¬("Audio system ready for quantum-enhanced production" ∈
         ["Audio system ready for advanced quantum processing"] ∧
       "Audio system ready for advanced quantum processing" ∈
         ["Audio system ready for advanced quantum processing"])) := by
  have h : get_audio_performance_metrics suiteThreeOfFive =
      .metrics 5 3 (3/5) 3 1 (1/2) "HARMONIC"
        ["Audio system ready for advanced quantum processing"] := by
    norm_num [get_audio_performance_metrics, suiteThreeOfFive, successful_ops, isSuccessfulOp,
      execTimeOf, qualityOf, recommendationList]
  exact ⟨h, recommendation_mutual_exclusion suiteThreeOfFive 5 3 (3/5) 3 1 (1/2) "HARMONIC" _ h⟩

/-! The suite runner's partial-failure behaviour (C6). -/

/-- Whether an abstracted suite operation raises. -/
def isErrOp : Except String JobResult → Bool
  | .error _ => true
  | .ok _ => false

/-- Whether a suite operation, if it returns, returns a result whose
analysis does not itself raise (any failed result, or any successful result
with a positive count total). -/
def analyzableOp : Except String JobResult → Bool
  | .error _ => true
  | .ok r => !r.success || (total_shots r.counts != 0)

/-- Whether a suite entry is the `{"error": str(e)}` marker. -/
def isFailureEntry : SuiteEntry → Bool
  | .failure _ => true
  | .outcome _ _ => false

/-- The analysis of an analyzable result does not raise. -/
theorem analyze_ok_of_analyzable (r : JobResult)
    (h : (!r.success || (total_shots r.counts != 0)) = true) :
    ∃ a, analyze_audio_effectiveness r = .ok a := by
  cases hs : r.success with
  | false => exact ⟨.failed "quantum_audio_failed", by simp [analyze_audio_effectiveness, hs]⟩
  | true =>
    have htot : total_shots r.counts ≠ 0 := by simpa [hs] using h
    have hne : r.counts ≠ [] := by
      intro hnil
      exact htot (by simp [total_shots, hnil])
    obtain ⟨x, xs, hx⟩ := List.exists_cons_of_ne_nil hne
    obtain ⟨m, hm, -, -⟩ := most_common_spec x xs
    exact ⟨.report ((m.2 : ℚ) / (total_shots (x :: xs) : ℚ)) m.1 (x :: xs).length
        (calculate_harmony (x :: xs)) (generate_audio_insights r),
      by simp [analyze_audio_effectiveness, hs, hx, hm, hx ▸ htot]⟩

/-- The suite runner preserves the operation names in order, turns each
raising operation into an error entry and each analyzable returning
operation into a result/analysis entry. -/
theorem run_all_shape (ops : List (String × Except String JobResult))
    (h : ∀ p ∈ ops, analyzableOp p.2 = true) :
    (run_all_audio_operations ops).map Prod.fst = ops.map Prod.fst ∧
    ((run_all_audio_operations ops).filter fun p => isFailureEntry p.2).length
      = (ops.filter fun p => isErrOp p.2).length ∧
    ((run_all_audio_operations ops).filter fun p => !isFailureEntry p.2).length
      = (ops.filter fun p => !isErrOp p.2).length := by
  induction ops with
  | nil => simp [run_all_audio_operations]
  | cons p ps ih =>
    obtain ⟨h1, h2, h3⟩ := ih fun q hq => h q (List.mem_cons_of_mem _ hq)
    have hp := h p (List.mem_cons_self _ _)
    obtain ⟨name, op⟩ := p
    cases op with
    | error e =>
      refine ⟨?_, ?_, ?_⟩
      · simp [run_all_audio_operations]
      · simpa [run_all_audio_operations, isErrOp, isFailureEntry, List.filter_cons] using h2
      · simpa [run_all_audio_operations, isErrOp, isFailureEntry, List.filter_cons] using h3
    | ok r =>
      obtain ⟨a, ha⟩ := analyze_ok_of_analyzable r (by simpa [analyzableOp] using hp)
      refine ⟨?_, ?_, ?_⟩
      · simp [run_all_audio_operations]
      · simpa [run_all_audio_operations, isErrOp, isFailureEntry, List.filter_cons, ha] using h2
      · simpa [run_all_audio_operations, isErrOp, isFailureEntry, List.filter_cons, ha] using h3

/-- C6, amended: if exactly 2 of the 5 suite operations raise and the other
3 return results whose analysis does not itself raise, the suite mapping
keeps all 5 operation names in order (no early stop), with 2 error-marker
entries and 3 result/analysis entries. (The amendment is forced because the
runner's `try` also covers the analysis: a returned result whose analysis
raises - empty histogram or zero count total - is recorded as an error
entry as well.) -/
theorem suite_partial_failure_containment (ops : List (String × Except String JobResult))
    (hlen : ops.length = 5)
    (herr : (ops.filter fun p => isErrOp p.2).length = 2)
    (hok : (ops.filter fun p => !isErrOp p.2).length = 3)
    (hana : ∀ p ∈ ops, analyzableOp p.2 = true) :
    (run_all_audio_operations ops).map Prod.fst = ops.map Prod.fst ∧
    (run_all_audio_operations ops).length = 5 ∧
    ((run_all_audio_operations ops).filter fun p => isFailureEntry p.2).length = 2 ∧
    ((run_all_audio_operations ops).filter fun p => !isFailureEntry p.2).length = 3 := by
  obtain ⟨h1, h2, h3⟩ := run_all_shape ops hana
  refine ⟨h1, ?_, h2.trans herr, h3.trans hok⟩
  have hl := congrArg List.length h1
  simpa [hlen] using hl

/-- A returning operation whose result is analyzable. -/
def okOperation : Except String JobResult := .ok ⟨true, [("000", 2)], 1⟩

/-- Five abstracted operations: two raise, three return analyzable results. -/
def opsTwoRaise : List (String × Except String JobResult) :=
  [("Audio Synthesis", okOperation),
   ("Consciousness Audio", okOperation),
   ("Echo Optimization", okOperation),
   ("Frequency Harmonization", .error "quota exceeded"),
   ("Spatial Audio", .error "device offline")]

/-- Witness for the amended C6 at a concrete assignment of the five
operations. -/
theorem suite_partial_failure_containment_witness :
    opsTwoRaise.length = 5 ∧
    (opsTwoRaise.filter fun p => isErrOp p.2).length = 2 ∧
    (opsTwoRaise.filter fun p => !isErrOp p.2).length = 3 ∧
    (∀ p ∈ opsTwoRaise, analyzableOp p.2 = true) ∧
    ((run_all_audio_operations opsTwoRaise).map Prod.fst = opsTwoRaise.map Prod.fst ∧
     (run_all_audio_operations opsTwoRaise).length = 5 ∧
     ((run_all_audio_operations opsTwoRaise).filter fun p => isFailureEntry p.2).length = 2 ∧
     ((run_all_audio_operations opsTwoRaise).filter fun p => !isFailureEntry p.2).length = 3) :=
  ⟨by decide, by decide, by decide, by decide,
   suite_partial_failure_containment opsTwoRaise (by decide) (by decide) (by decide) (by decide)⟩

/-- Five abstracted operations: two raise, three return results, but the
first returned result has an empty histogram (its analysis raises). -/
def opsTwoRaiseOneEmpty : List (String × Except String JobResult) :=
  [("Audio Synthesis", .ok ⟨true, [], 1⟩),
   ("Consciousness Audio", okOperation),
   ("Echo Optimization", okOperation),
   ("Frequency Harmonization", .error "quota exceeded"),
   ("Spatial Audio", .error "device offline")]

/-- C6, counterexample: with exactly 2 of 5 operations raising and 3
returning results, the suite mapping can still hold 3 error markers and only
2 result/analysis pairs, because the analysis of a returned result (here one
with an empty histogram) raises inside the same `try` block. -/
theorem suite_pair_count_counterexample :
    (opsTwoRaiseOneEmpty.filter fun p => isErrOp p.2).length = 2 ∧
    (opsTwoRaiseOneEmpty.filter fun p => !isErrOp p.2).length = 3 ∧
    ((run_all_audio_operations opsTwoRaiseOneEmpty).filter
       fun p => isFailureEntry p.2).length = 3 ∧
    ((run_all_audio_operations opsTwoRaiseOneEmpty).filter
       fun p => !isFailureEntry p.2).length = 2 := by
  refine ⟨by decide, by decide, ?_, ?_⟩ <;>
    simp [run_all_audio_operations, opsTwoRaiseOneEmpty, okOperation,
      analyze_audio_effectiveness, most_common, total_shots, isFailureEntry, List.filter_cons]

/-! The harmony score (C3, C4). -/

/-- Each entropy summand of `calculate_harmony` is non-negative when the
count is bounded by the total. -/
theorem harmony_term_nonneg (c total : ℕ) (hc : c ≤ total) :
    0 ≤ (if 0 < c then -(((c : ℝ) / (total : ℝ)) * Real.logb 2 ((c : ℝ) / (total : ℝ)))
         else (0 : ℝ)) := by
  split
  · rename_i hcpos
    have htot : 0 < total := lt_of_lt_of_le hcpos hc
    have hp0 : (0 : ℝ) ≤ (c : ℝ) / (total : ℝ) := by positivity
    have hp1 : (c : ℝ) / (total : ℝ) ≤ 1 := by
      rw [div_le_one (by exact_mod_cast htot)]
      exact_mod_cast hc
    have hlog : Real.logb 2 ((c : ℝ) / (total : ℝ)) ≤ 0 :=
      Real.logb_nonpos (by norm_num) hp0 hp1
    exact neg_nonneg.mpr (mul_nonpos_of_nonneg_of_nonpos hp0 hlog)
  · exact le_rfl

/-- The entropy accumulated by `calculate_harmony` is non-negative. -/
theorem harmony_sum_nonneg (counts : List (String × ℕ)) :
    0 ≤ harmony_sum counts := by
  apply List.sum_nonneg
  intro t ht
  obtain ⟨c, hc, rfl⟩ := List.mem_map.mp ht
  exact harmony_term_nonneg c (total_shots counts) (List.le_sum_of_mem hc)

/-- When some entry carries the whole (positive) total, every entry with a
positive count carries the whole total. -/
theorem count_eq_total_of_mass_on_one (counts : List (String × ℕ)) (p0 : String × ℕ)
    (hp0 : p0 ∈ counts) (hp0t : p0.2 = total_shots counts)
    (q : String × ℕ) (hq : q ∈ counts) (hqpos : 0 < q.2) :
    q.2 = total_shots counts := by
  obtain ⟨l1, l2, hsplit⟩ := List.append_of_mem hp0
  have hsum : total_shots counts
      = total_shots l1 + (p0.2 + total_shots l2) := by
    rw [hsplit]
    simp [total_shots]
  have hz1 : total_shots l1 = 0 := by omega
  have hz2 : total_shots l2 = 0 := by omega
  rcases List.mem_append.mp (hsplit ▸ hq) with hql | hqr
  · have : q.2 ≤ total_shots l1 :=
      List.le_sum_of_mem (List.mem_map_of_mem Prod.snd hql)
    omega
  · rcases List.mem_cons.mp hqr with hqp | hql2
    · exact hqp ▸ hp0t
    · have : q.2 ≤ total_shots l2 :=
        List.le_sum_of_mem (List.mem_map_of_mem Prod.snd hql2)
      omega

/-- C3: the harmony score lies in `[0, 1]` for every histogram, and a
single-outcome distribution (one entry carrying the whole positive total)
scores exactly 0. -/
theorem harmony_unit_interval_and_pure_zero (counts : List (String × ℕ)) :
    (0 ≤ calculate_harmony counts ∧ calculate_harmony counts ≤ 1) ∧
    ((∃ p ∈ counts, p.2 = total_shots counts) → 0 < total_shots counts →
      calculate_harmony counts = 0) := by
  constructor
  · unfold calculate_harmony
    split
    · norm_num
    · constructor
      · refine le_min (by norm_num) ?_
        have := harmony_sum_nonneg counts
        positivity
      · exact min_le_left _ _
  · rintro ⟨p0, hp0, hp0t⟩ htot
    have hS : harmony_sum counts = 0 := by
      apply List.sum_eq_zero
      intro t ht
      obtain ⟨c, hc, rfl⟩ := List.mem_map.mp ht
      split
      · rename_i hcpos
        obtain ⟨q, hq, hqc⟩ := List.mem_map.mp hc
        have hct : c = total_shots counts :=
          hqc ▸ count_eq_total_of_mass_on_one counts p0 hp0 hp0t q hq (hqc ▸ hcpos)
        have hdiv : (c : ℝ) / (total_shots counts : ℝ) = 1 := by
          rw [hct]
          exact div_self (by exact_mod_cast Nat.pos_iff_ne_zero.mp htot)
        rw [hdiv]
        simp
      · rfl
    unfold calculate_harmony
    rw [if_neg (Nat.pos_iff_ne_zero.mp htot), hS]
    norm_num

/-- Witness for C3 at the single-outcome histogram `{"0": 5}`. -/
theorem harmony_unit_interval_and_pure_zero_witness :
    (0 ≤ calculate_harmony [("0", 5)] ∧ calculate_harmony [("0", 5)] ≤ 1) ∧
    calculate_harmony [("0", 5)] = 0 :=
  ⟨(harmony_unit_interval_and_pure_zero [("0", 5)]).1,
   (harmony_unit_interval_and_pure_zero [("0", 5)]).2
     ⟨("0", 5), by simp, by simp [total_shots]⟩ (by simp [total_shots])⟩

/-- The scenario histogram of C4: counts `{"0101": 80, "1010": 20}`. -/
def scenarioCounts : List (String × ℕ) := [("0101", 80), ("1010", 20)]

/-- `5^250 < 2^581`, so the base-2 logarithm of 5 is below `2.324`. -/
theorem logb_five_upper : Real.logb 2 5 < 581/250 := by
  have h2 : (0:ℝ) < Real.log 2 := Real.log_pos one_lt_two
  rw [Real.logb, div_lt_iff₀ h2]
  have hpow : (5:ℝ)^(250:ℕ) < (2:ℝ)^(581:ℕ) := by
    have h : (5:ℕ)^250 < 2^581 := by norm_num
    exact_mod_cast h
  have hlog := Real.log_lt_log (by positivity) hpow
  rw [Real.log_pow, Real.log_pow] at hlog
  push_cast at hlog
  linarith

/-- `2^58 < 5^25`, so the base-2 logarithm of 5 is above `2.32`. -/
theorem logb_five_lower : 58/25 < Real.logb 2 5 := by
  have h2 : (0:ℝ) < Real.log 2 := Real.log_pos one_lt_two
  rw [Real.logb, lt_div_iff₀ h2]
  have hpow : (2:ℝ)^(58:ℕ) < (5:ℝ)^(25:ℕ) := by
    have h : (2:ℕ)^58 < 5^25 := by norm_num
    exact_mod_cast h
  have hlog := Real.log_lt_log (by positivity) hpow
  rw [Real.log_pow, Real.log_pow] at hlog
  push_cast at hlog
  linarith

/-- `log2 0.8` in terms of `log2 5`. -/
theorem logb_four_fifths : Real.logb 2 ((4:ℝ)/5) = 2 - Real.logb 2 5 := by
  rw [Real.logb_div (by norm_num) (by norm_num), show (4:ℝ) = 2^(2:ℕ) by norm_num,
    Real.logb_pow, Real.logb_self_eq_one (by norm_num)]
  norm_num

/-- `log2 0.2` in terms of `log2 5`. -/
theorem logb_one_fifth : Real.logb 2 ((1:ℝ)/5) = -Real.logb 2 5 := by
  rw [one_div, Real.logb_inv]

/-- The entropy of the 80/20 scenario in closed form. -/
theorem scenario_harmony_sum : harmony_sum scenarioCounts = Real.logb 2 5 - 8/5 := by
  have htot : total_shots scenarioCounts = 100 := by norm_num [scenarioCounts, total_shots]
  unfold harmony_sum
  rw [htot]
  norm_num [scenarioCounts]
  rw [logb_four_fifths, logb_one_fifth]
  ring

/-- The harmony of the 80/20 scenario in closed form: the clamp at 1.0 is
inactive because the entropy is far below 4 bits. -/
theorem scenario_harmony_closed_form :
    calculate_harmony scenarioCounts = (Real.logb 2 5 - 8/5) / 4 := by
  unfold calculate_harmony
  rw [if_neg (by norm_num [scenarioCounts, total_shots]), scenario_harmony_sum,
    min_eq_right (by have := logb_five_upper; linarith)]

/-- C4, amended: the 4-qubit scenario `{"0101": 80, "1010": 20}` over 100
shots yields quality 0.8, dominant outcome "0101", diversity 2, and
harmony = -(0.8*log2 0.8 + 0.2*log2 0.2)/4, which is approximately 0.1805
(strictly between 0.18 and 0.181). -/
theorem scenario_80_20_analysis :
    analyze_audio_effectiveness ⟨true, scenarioCounts, 10⟩ =
      .ok (.report (8/10) "0101" 2 (calculate_harmony scenarioCounts)
        ["Quantum audio synthesis achieved",
         "Consciousness-enhanced audio quantum-processed",
         "Fast audio processing achieved"]) ∧
    calculate_harmony scenarioCounts
      = -((8:ℝ)/10 * Real.logb 2 (8/10) + 2/10 * Real.logb 2 (2/10)) / 4 ∧
    (18:ℝ)/100 < calculate_harmony scenarioCounts ∧
    calculate_harmony scenarioCounts < 181/1000 := by
  refine ⟨?_, ?_, ?_, ?_⟩
  · norm_num [analyze_audio_effectiveness, scenarioCounts, most_common, total_shots,
      generate_audio_insights]
  · rw [scenario_harmony_closed_form]
    norm_num
    rw [logb_four_fifths, logb_one_fifth]
    ring
  · rw [scenario_harmony_closed_form]
    have := logb_five_lower
    linarith
  · rw [scenario_harmony_closed_form]
    have := logb_five_upper
    linarith

/-- C4, counterexample to the quoted approximation: the harmony of the
80/20 scenario is below 0.181, hence more than 0.003 away from the claimed
value 0.1842 (its true value is approximately 0.1805). -/
theorem scenario_harmony_not_01842 :
    calculate_harmony scenarioCounts < 181/1000 ∧
    (3:ℝ)/1000 < |calculate_harmony scenarioCounts - 1842/10000| := by
  have hcf := scenario_harmony_closed_form
  have hu := logb_five_upper
  constructor
  · rw [hcf]
    linarith
  · rw [hcf, abs_sub_comm, abs_of_pos (by linarith)]
    linarith

end QbraidIntegration
